import Mathlib

/-!
Shallow embedding of `src/project/journal.c`: a write-ahead journal for a
minimal block filesystem.  The backing image file is modelled as a flat byte
array `Disk := Nat → Nat` (byte value at absolute file offset); multi-byte
integer fields are little-endian, as on the x86 hosts the program targets.
The C structs have no padding: `inode_t` is 56 bytes, `dirent_t` 32 bytes,
`journal_data_t` 4104 bytes, `journal_commit_t` and `journal_header_t` 4
bytes each.

One deliberate modelling point: `write_jhdr` in the source calls
`writeblk(fd, JOURNAL_BLOCK_IDX, h)` where `h` points to a 4-byte
`journal_header_t`, so the `write` syscall emits BLOCK_SIZE = 4096 bytes
starting at that 4-byte object: the 4092 bytes following it on the stack
are also written to disk.  Those bytes are indeterminate in C; the model
makes them an explicit parameter `g : Nat → Nat` so theorems can quantify
over (or instantiate) the stack contents.  Similarly `read_jhdr` reads 4096
bytes into the 4-byte struct; the model keeps only the 4 defined header
bytes (the out-of-bounds store smashes the caller's stack and is not
representable in a deterministic embedding).
-/

namespace VsfsJournal

abbrev Disk := Nat → Nat

def BLOCK_SIZE : Nat := 4096

def JOURNAL_BLOCK_IDX : Nat := 1

def JOURNAL_BLOCKS : Nat := 16

def INODE_BMAP_IDX : Nat := JOURNAL_BLOCK_IDX + JOURNAL_BLOCKS

def DATA_BMAP_IDX : Nat := INODE_BMAP_IDX + 1

def INODE_START_IDX : Nat := DATA_BMAP_IDX + 1

def INODE_BLOCKS : Nat := 2

def DATA_START_IDX : Nat := INODE_START_IDX + INODE_BLOCKS

def MAX_NAME : Nat := 28

def JTYPE_DATA : Nat := 1

def JTYPE_COMMIT : Nat := 2

/-- sizeof(inode_t): 2+2+4+12*4 bytes, no padding. -/
def sizeof_inode : Nat := 56

/-- sizeof(dirent_t): 4 + 28 bytes. -/
def sizeof_dirent : Nat := 32

/-- sizeof(journal_data_t): 4 + 4 + 4096 bytes. -/
def sizeof_journal_data : Nat := 4104

/-- sizeof(journal_commit_t). -/
def sizeof_journal_commit : Nat := 4

/-- sizeof(journal_header_t). -/
def sizeof_journal_header : Nat := 4

/-- Byte offset of block `b` (`blkoff` in the source). -/
def blkoff (b : Nat) : Nat := b * BLOCK_SIZE

/-- Byte `k` of the 4-byte little-endian encoding of `v`. -/
def le32 (v k : Nat) : Nat := v / 256 ^ k % 256

/-- Decode the little-endian `uint32_t` stored at byte offset `off`. -/
def readLE32 (d : Disk) (off : Nat) : Nat :=
  d off + d (off + 1) * 256 + d (off + 2) * 65536 + d (off + 3) * 16777216

/-- Overwrite `len` bytes starting at `off` with the bytes of `src`
(`src 0` lands at offset `off`).  Models `pwrite(fd, src, len, off)`. -/
def writeBytes (d : Disk) (off len : Nat) (src : Nat → Nat) : Disk :=
  fun i => if off ≤ i ∧ i < off + len then src (i - off) else d i

/-- `writeblk`: write one full block. -/
def writeblk (d : Disk) (b : Nat) (src : Nat → Nat) : Disk :=
  writeBytes d (blkoff b) BLOCK_SIZE src

/-- The bytes of block `b` as a buffer (models `readblk` into a local). -/
def blockBytes (d : Disk) (b : Nat) : Nat → Nat :=
  fun j => d (blkoff b + j)

/-- `read_jhdr`: the header's `nbytes_used` field, the first 4 bytes of
block `JOURNAL_BLOCK_IDX`.  (The source reads a whole block into the 4-byte
struct; only the defined field is modelled.) -/
def read_jhdr (d : Disk) : Nat := readLE32 d (blkoff JOURNAL_BLOCK_IDX)

/-- `write_jhdr`: the source writes BLOCK_SIZE bytes from the 4-byte header
struct, so bytes 4..4095 of the written block come from the stack memory
following the struct, modelled by the parameter `g`. -/
def write_jhdr (d : Disk) (v : Nat) (g : Nat → Nat) : Disk :=
  writeblk d JOURNAL_BLOCK_IDX (fun k => if k < 4 then le32 v k else g (k - 4))

/-- Bit test `bmap[i/8] & (1 << (i%8))` on a bitmap buffer. -/
def testBitmap (bm : Nat → Nat) (i : Nat) : Bool :=
  Nat.testBit (bm (i / 8)) (i % 8)

/-- The bitmap-scan loop of `cmd_create`: first index `i` (searching `n`
indices starting at `i0`) whose bit is clear. -/
def findFreeBitFrom (bm : Nat → Nat) : Nat → Nat → Option Nat
  | _, 0 => none
  | i, n + 1 => if testBitmap bm i then findFreeBitFrom bm (i + 1) n else some i

/-- `inode_bmap[i/8] |= (1 << (i%8))` on the in-memory bitmap copy. -/
def setBitmapBit (bm : Nat → Nat) (i : Nat) : Nat → Nat :=
  fun j => if j = i / 8 then bm j ||| 2 ^ (i % 8) else bm j

/-- Byte `k` of the fresh inode `{type=1, links=1, size=0, blocks=0}`:
`type` is a uint16 at bytes 0..1, `links` a uint16 at bytes 2..3. -/
def inodeBytes (k : Nat) : Nat := if k = 0 ∨ k = 2 then 1 else 0

/-- `memset(in,0,sizeof *in); in->type=1; in->links=1; in->size=0` applied to
the inode-table block buffer at byte offset `off`. -/
def writeInode (blk : Nat → Nat) (off : Nat) : Nat → Nat :=
  fun j => if off ≤ j ∧ j < off + sizeof_inode then inodeBytes (j - off) else blk j

/-- The directory-scan loop of `cmd_create`: first entry index (searching `n`
slots starting at `i0`) whose `inode` field is 0. -/
def findFreeSlotFrom (dir : Nat → Nat) : Nat → Nat → Option Nat
  | _, 0 => none
  | i, n + 1 =>
    if readLE32 dir (sizeof_dirent * i) = 0 then some i
    else findFreeSlotFrom dir (i + 1) n

/-- `strncpy(dst+off, name, n)`: copies characters of `name` up to the first
NUL or `n` characters, NUL-padding the remainder of the `n` bytes; never
touches `dst` outside `[off, off+n)`.  `name` lists the bytes of the C
string argument (its terminating NUL is implicit, so a 0 element inside
`name` acts as the terminator, as in C). -/
def strncpyBytes (dst : Nat → Nat) (off : Nat) (name : List Nat) (n : Nat) : Nat → Nat :=
  fun j =>
    if off ≤ j ∧ j < off + n then ((name.takeWhile (fun c => c != 0)).take n).getD (j - off) 0
    else dst j

/-- The directory-entry update of `cmd_create` (lines 156-164): scan slots
2..127 for `ents[i].inode == 0`; on a hit store `ents[i].inode = ino` and
`strncpy(ents[i].name, name, MAX_NAME - 1)`; with no free slot the loop just
ends and the block is left unchanged (the source reports no error). -/
def addDirent (dir : Nat → Nat) (ino : Nat) (name : List Nat) : Nat → Nat :=
  match findFreeSlotFrom dir 2 126 with
  | none => dir
  | some i =>
      strncpyBytes (writeBytes dir (sizeof_dirent * i) 4 (le32 ino))
        (sizeof_dirent * i + 4) name (MAX_NAME - 1)

/-- Bytes of one serialized `journal_data_t` record: 4-byte type tag
`JTYPE_DATA`, 4-byte `block_no`, 4096 payload bytes. -/
def dataRecBytes (blockNo : Nat) (payload : Nat → Nat) (k : Nat) : Nat :=
  if k < 4 then le32 JTYPE_DATA k
  else if k < 8 then le32 blockNo (k - 4)
  else payload (k - 8)

/-- `3 * sizeof(journal_data_t) + sizeof(journal_commit_t)`. -/
def txn_size : Nat := 3 * sizeof_journal_data + sizeof_journal_commit

/-- `JOURNAL_BLOCKS * BLOCK_SIZE - sizeof(journal_header_t)`. -/
def journal_cap : Nat := JOURNAL_BLOCKS * BLOCK_SIZE - sizeof_journal_header

/-- Inodes per block: `BLOCK_SIZE / sizeof(inode_t)` = 73. -/
def inodes_per_block : Nat := BLOCK_SIZE / sizeof_inode

/-- The four journal-record `pwrite`s of `cmd_create` (lines 166-197): the
three data records (updated inode bitmap, updated inode-table block, updated
directory block, in that order) at increasing offsets from
`blkoff(JOURNAL_BLOCK_IDX) + sizeof(journal_header_t) + jh.nbytes_used`,
followed by one commit record.  The header is not yet updated here. -/
def createRecords (d : Disk) (name : List Nat) (ino : Nat) : Disk :=
  let used := read_jhdr d
  let bmap1 := setBitmapBit (blockBytes d INODE_BMAP_IDX) ino
  let itable_block := INODE_START_IDX + ino / inodes_per_block
  let itable1 := writeInode (blockBytes d itable_block) (sizeof_inode * (ino % inodes_per_block))
  let dir1 := addDirent (blockBytes d DATA_START_IDX) ino name
  let off := blkoff JOURNAL_BLOCK_IDX + sizeof_journal_header + used
  let d1 := writeBytes d off sizeof_journal_data (dataRecBytes INODE_BMAP_IDX bmap1)
  let d2 := writeBytes d1 (off + sizeof_journal_data) sizeof_journal_data
    (dataRecBytes itable_block itable1)
  let d3 := writeBytes d2 (off + 2 * sizeof_journal_data) sizeof_journal_data
    (dataRecBytes DATA_START_IDX dir1)
  writeBytes d3 (off + 3 * sizeof_journal_data) sizeof_journal_commit (le32 JTYPE_COMMIT)

/-- The success path of `cmd_create` after inode allocation: journal the
transaction, then update and persist the header (which, via `write_jhdr`,
rewrites the whole of block 1, including the first 4092 record bytes, from
the 4-byte header struct and the stack bytes `g` that follow it). -/
def createBody (d : Disk) (name : List Nat) (g : Nat → Nat) (ino : Nat) : Disk :=
  write_jhdr (createRecords d name ino) (read_jhdr d + txn_size) g

/-- `cmd_create` (lines 87-206).  `none` models `exit(1)` (journal full, or
no free inode), which in the source happens before any disk write.  Note the
source's directory-full case is not an exit: the entry loop simply finds no
slot and the transaction is journalled with the directory block unchanged. -/
def cmd_create (d : Disk) (name : List Nat) (g : Nat → Nat) : Option Disk :=
  if read_jhdr d + txn_size > journal_cap then none
  else
    match findFreeBitFrom (blockBytes d INODE_BMAP_IDX) 0 (BLOCK_SIZE * 8) with
    | none => none
    | some ino => some (createBody d name g ino)

/-- A pending data record held in memory during replay: `(block_no, data)`.
The `data` field of `journal_data_t` is a 4096-byte array, so the payload
function is normalized to 0 outside `[0, 4096)`. -/
abbrev JRec := Nat × (Nat → Nat)

/-- Apply pending records in order: `writeblk(fd, pending[i].block_no,
pending[i].data)` for `i = 0 .. np-1`. -/
def applyWrites (d : Disk) (ws : List JRec) : Disk :=
  ws.foldl (fun acc r => writeblk acc r.1 r.2) d

/-- The scan loop of `cmd_install` (lines 231-251), with absolute byte
offsets as in the source (`off` starts at `blkoff(JOURNAL_BLOCK_IDX) +
sizeof(journal_header_t)`, `endo = off + nbytes_used`).  Returns the disk
after all applied `writeblk`s together with the largest value the pending
count `np` reaches (the source buffers records in `journal_data_t
pending[8]`, so a run where this exceeds 8 writes `pending[np]` out of
bounds).  `fuel` is a structural-recursion bound; every caller passes at
least one more than the number of loop iterations, and each iteration
advances `off` by at least 4, so `endo + 1` total fuel always suffices. -/
def installLoop (endo : Nat) : Nat → Nat → Disk → List JRec → Disk × Nat
  | 0, _, d, pending => (d, pending.length)
  | fuel + 1, off, d, pending =>
    if off < endo then
      if readLE32 d off = JTYPE_DATA then
        installLoop endo fuel (off + sizeof_journal_data) d
          (pending ++ [(readLE32 d (off + 4),
            fun k => if k < BLOCK_SIZE then d (off + 8 + k) else 0)])
      else if readLE32 d off = JTYPE_COMMIT then
        let res := installLoop endo fuel (off + sizeof_journal_commit) (applyWrites d pending) []
        (res.1, max pending.length res.2)
      else (d, pending.length)
    else (d, pending.length)

/-- `cmd_install` (lines 210-260): scan the journal per the persisted
header, then reset the header to 0 (again via the block-sized `write_jhdr`,
whose trailing 4092 source bytes are the stack contents `g`). -/
def cmd_install (d : Disk) (g : Nat → Nat) : Disk :=
  let used := read_jhdr d
  let off0 := blkoff JOURNAL_BLOCK_IDX + sizeof_journal_header
  write_jhdr (installLoop (off0 + used) (used + 1) off0 d []).1 0 g

/-- Largest pending-record count `np` reached while replaying `d`'s journal:
the source's `pending` array holds 8 records, so a value above 8 means an
out-of-bounds store into `pending[np]`. -/
def installMaxPending (d : Disk) : Nat :=
  let used := read_jhdr d
  let off0 := blkoff JOURNAL_BLOCK_IDX + sizeof_journal_header
  (installLoop (off0 + used) (used + 1) off0 d []).2

/-- Byte `i` of the concatenated serialization of a list of data records
(each record occupies `sizeof_journal_data` = 4104 bytes). -/
def serializeRecs (recs : List JRec) (i : Nat) : Nat :=
  match recs.get? (i / sizeof_journal_data) with
  | some r => dataRecBytes r.1 r.2 (i % sizeof_journal_data)
  | none => 0

/-- Byte `i` of one whole transaction: the data records followed by one
commit record. -/
def txnBytes (recs : List JRec) (i : Nat) : Nat :=
  if i < sizeof_journal_data * recs.length then serializeRecs recs i
  else le32 JTYPE_COMMIT (i - sizeof_journal_data * recs.length)

/-- All-zero disk: a freshly initialized image (empty journal, clear
bitmaps, zeroed inode table, root directory whose slots all have inode 0). -/
def freshDisk : Disk := fun _ => 0

/-- All-zero stack garbage for the out-of-bounds `write_jhdr` source bytes. -/
def gZero : Nat → Nat := fun _ => 0

/-- The byte string "foo". -/
def fooName : List Nat := [102, 111, 111]

/-- Disk whose root-directory block (block 21) is all 1-bytes, so every
directory slot, from index 0 on, has a nonzero `inode` field: the directory
is full.  Journal header reads 0 and the inode bitmap is clear. -/
def dDirFull : Disk := fun i => if blkoff DATA_START_IDX ≤ i ∧ i < blkoff (DATA_START_IDX + 1) then 1 else 0

/-- Disk of all 255-bytes: its journal header field reads 4294967295. -/
def dFull : Disk := fun _ => 255

/-- Stack garbage of all 5-bytes, to make the `write_jhdr` clobber visible. -/
def gFives : Nat → Nat := fun _ => 5

/-- Writing the same header value with the same trailing stack bytes twice
is the same as writing it once. -/
theorem write_jhdr_write_jhdr (d : Disk) (v : Nat) (g : Nat → Nat) :
    write_jhdr (write_jhdr d v g) v g = write_jhdr d v g := by
  funext i
  by_cases h : blkoff JOURNAL_BLOCK_IDX ≤ i ∧ i < blkoff JOURNAL_BLOCK_IDX + BLOCK_SIZE <;>
    simp [write_jhdr, writeblk, writeBytes, h]

/-- `write_jhdr` touches only block `JOURNAL_BLOCK_IDX`. -/
theorem write_jhdr_outside (d : Disk) (v : Nat) (g : Nat → Nat) (i : Nat)
    (h : i < blkoff JOURNAL_BLOCK_IDX ∨ blkoff (JOURNAL_BLOCK_IDX + 1) ≤ i) :
    write_jhdr d v g i = d i := by
  have hne : ¬ (blkoff JOURNAL_BLOCK_IDX ≤ i ∧ i < blkoff JOURNAL_BLOCK_IDX + BLOCK_SIZE) := by
    simp only [blkoff, JOURNAL_BLOCK_IDX, BLOCK_SIZE] at h ⊢
    omega
  simp [write_jhdr, writeblk, writeBytes, hne]

/-- Reading the header back after `write_jhdr` returns the written value
(for values fitting in the uint32 field). -/
theorem read_jhdr_write_jhdr (d : Disk) (v : Nat) (g : Nat → Nat) (hv : v < 4294967296) :
    read_jhdr (write_jhdr d v g) = v := by
  simp only [read_jhdr, readLE32, write_jhdr, writeblk, writeBytes, blkoff, le32,
    JOURNAL_BLOCK_IDX, BLOCK_SIZE]
  norm_num
  omega

/-- After `cmd_install` the persisted header field is 0. -/
theorem read_jhdr_cmd_install (d : Disk) (g : Nat → Nat) :
    read_jhdr (cmd_install d g) = 0 := by
  unfold cmd_install
  exact read_jhdr_write_jhdr _ 0 g (by norm_num)

/-- On a disk whose header reads 0, `cmd_install` performs no block write
except the final header rewrite. -/
theorem cmd_install_of_empty (d : Disk) (g : Nat → Nat) (h : read_jhdr d = 0) :
    cmd_install d g = write_jhdr d 0 g := by
  unfold cmd_install
  rw [h]
  rfl

/-- C9: `installJournal` never fails on journal content: in the model it is
a total function `Disk → Disk` (the only failures in the source are
backing-store `open` failures, outside the byte-level model), it handles any
journal content — committed, truncated, or with unknown tags — and it
unconditionally resets the persisted `nbytes_used` header field to 0. -/
theorem install_total_and_resets_header (d : Disk) (g : Nat → Nat) :
    read_jhdr (cmd_install d g) = 0 :=
  read_jhdr_cmd_install d g

/-- C6: `installJournal` is idempotent.  Running it twice (with the same
indeterminate stack bytes `g` feeding the block-sized header write) yields
exactly the disk of running it once; and even with different stack bytes
`gSecond`, the second invocation — which sees `bytesUsed = 0` — changes no
byte outside block `JOURNAL_BLOCK_IDX`, the journal-header block it
rewrites. -/
theorem install_idempotent (d : Disk) (g gSecond : Nat → Nat) :
    cmd_install (cmd_install d g) g = cmd_install d g
    ∧ ∀ i, i < blkoff JOURNAL_BLOCK_IDX ∨ blkoff (JOURNAL_BLOCK_IDX + 1) ≤ i →
        cmd_install (cmd_install d g) gSecond i = cmd_install d g i := by
  have h0 : read_jhdr (cmd_install d g) = 0 := read_jhdr_cmd_install d g
  constructor
  · rw [cmd_install_of_empty _ g h0]
    show write_jhdr (write_jhdr _ 0 g) 0 g = _
    exact write_jhdr_write_jhdr _ 0 g
  · intro i hi
    rw [cmd_install_of_empty _ gSecond h0]
    exact write_jhdr_outside _ 0 gSecond i hi

/-- Witness for C6 at a concrete state: one committed transaction journalled
on a fresh image, then installed; the second install is a no-op and leaves
the inode-bitmap byte untouched. -/
theorem install_idempotent_witness :
    cmd_install (cmd_install (createBody freshDisk fooName gZero 0) gZero) gZero
      = cmd_install (createBody freshDisk fooName gZero 0) gZero
    ∧ cmd_install (cmd_install (createBody freshDisk fooName gZero 0) gZero) gFives
        (blkoff INODE_BMAP_IDX)
      = cmd_install (createBody freshDisk fooName gZero 0) gZero (blkoff INODE_BMAP_IDX) :=
  ⟨(install_idempotent (createBody freshDisk fooName gZero 0) gZero gFives).1,
   (install_idempotent (createBody freshDisk fooName gZero 0) gZero gFives).2
     (blkoff INODE_BMAP_IDX) (Or.inr (by decide))⟩

/-- C4: when `nbytes_used + txn_size` exceeds the journal capacity,
`cmd_create` exits with the "journal full" error; in the source this check
precedes every disk write, so nothing is written and the header is
untouched (`none` models the error exit taken before any write). -/
theorem create_fails_when_journal_full (d : Disk) (name : List Nat) (g : Nat → Nat)
    (h : read_jhdr d + txn_size > journal_cap) :
    cmd_create d name g = none := by
  simp only [cmd_create]
  rw [if_pos h]

/-- Witness for C4: a disk whose header field reads 4294967295 makes
`cmd_create` fail. -/
theorem create_fails_when_journal_full_witness :
    read_jhdr dFull + txn_size > journal_cap ∧ cmd_create dFull fooName gZero = none :=
  ⟨by decide, create_fails_when_journal_full dFull fooName gZero (by decide)⟩

/-- C1 (code bug): on a fresh image, `cmd_create "foo"` does set
`nbytes_used` to `3*sizeof(journal_data_t) + sizeof(journal_commit_t)` =
12316 — that half of the claim holds — but the very header update that
persists it is a block-sized write from the 4-byte header struct, which
overwrites the first 4092 bytes of record storage (here with the stack
bytes `gZero`).  Replay then reads tag 0, stops, and applies nothing:
after `cmd_install`, `nbytes_used` is 0 as claimed, but bit 0 of the inode
bitmap is still clear, inode slot 0's type byte is still 0 (not 1), and
directory slot 2's name field is still empty — the round trip fails. -/
theorem create_install_round_trip_bug :
    cmd_create freshDisk fooName gZero = some (createBody freshDisk fooName gZero 0)
    ∧ read_jhdr (createBody freshDisk fooName gZero 0) = txn_size
    ∧ read_jhdr (cmd_install (createBody freshDisk fooName gZero 0) gZero) = 0
    ∧ Nat.testBit (cmd_install (createBody freshDisk fooName gZero 0) gZero
        (blkoff INODE_BMAP_IDX)) 0 = false
    ∧ cmd_install (createBody freshDisk fooName gZero 0) gZero (blkoff INODE_START_IDX) = 0
    ∧ cmd_install (createBody freshDisk fooName gZero 0) gZero
        (blkoff DATA_START_IDX + sizeof_dirent * 2 + 4) = 0 :=
  ⟨rfl, by decide, by decide, by decide, by decide, by decide⟩

/-- C3 (code bug): the three data records and the commit record are indeed
serialized in order at increasing offsets from `blkoff(JOURNAL_BLOCK_IDX) +
sizeof(journal_header_t) + nbytes_used` (tags 1,1,1,2 and record 1's
`block_no` = INODE_BMAP_IDX, checked below on a fresh image), but the
header update does NOT leave the just-written record bytes unchanged:
`write_jhdr` writes a whole block from the 4-byte header struct, replacing
the first record's bytes with trailing stack memory (here `gFives`), so the
first byte of record 1 becomes 5 instead of the written tag 1 and a
subsequent replay cannot read the transaction. -/
theorem header_update_clobbers_records :
    createRecords freshDisk fooName 0 (blkoff JOURNAL_BLOCK_IDX + sizeof_journal_header) = 1
    ∧ createRecords freshDisk fooName 0 (blkoff JOURNAL_BLOCK_IDX + sizeof_journal_header + 4)
        = INODE_BMAP_IDX
    ∧ createRecords freshDisk fooName 0
        (blkoff JOURNAL_BLOCK_IDX + sizeof_journal_header + sizeof_journal_data) = 1
    ∧ createRecords freshDisk fooName 0
        (blkoff JOURNAL_BLOCK_IDX + sizeof_journal_header + 2 * sizeof_journal_data) = 1
    ∧ createRecords freshDisk fooName 0
        (blkoff JOURNAL_BLOCK_IDX + sizeof_journal_header + 3 * sizeof_journal_data) = 2
    ∧ createBody freshDisk fooName gFives 0 (blkoff JOURNAL_BLOCK_IDX + sizeof_journal_header)
        = 5 :=
  ⟨by decide, by decide, by decide, by decide, by decide, by decide⟩

/-- C5 (code bug): with every directory slot occupied (block 21 all
1-bytes, so each slot's `inode` field is 16843009 ≠ 0), the slot scan finds
nothing — yet `cmd_create` does not fail: it returns a journalled
transaction (no `DirectoryFullError` exists in the source), and the
directory payload of the journal's third data record is the unchanged
original block (bytes still 1 where the claimed new entry's inode and name
bytes would be). -/
theorem create_directory_full_not_reported :
    findFreeSlotFrom (blockBytes dDirFull DATA_START_IDX) 2 126 = none
    ∧ cmd_create dDirFull fooName gZero = some (createBody dDirFull fooName gZero 0)
    ∧ createBody dDirFull fooName gZero 0
        (blkoff JOURNAL_BLOCK_IDX + sizeof_journal_header + 2 * sizeof_journal_data + 8
          + sizeof_dirent * 2) = 1
    ∧ createBody dDirFull fooName gZero 0
        (blkoff JOURNAL_BLOCK_IDX + sizeof_journal_header + 2 * sizeof_journal_data + 8
          + sizeof_dirent * 2 + 4) = 1 :=
  ⟨by decide, rfl, by decide, by decide⟩

/-- A free slot returned by the directory scan really has a zero `inode`
field. -/
theorem findFreeSlotFrom_found (dir : Nat → Nat) :
    ∀ n i0 s, findFreeSlotFrom dir i0 n = some s → readLE32 dir (sizeof_dirent * s) = 0 := by
  intro n
  induction n with
  | zero => intro i0 s hc; simp [findFreeSlotFrom] at hc
  | succ m ih =>
    intro i0 s hc
    simp only [findFreeSlotFrom] at hc
    by_cases h0 : readLE32 dir (sizeof_dirent * i0) = 0
    · rw [if_pos h0] at hc
      cases hc
      exact h0
    · rw [if_neg h0] at hc
      exact ih _ _ hc

/-- The directory scan only looks at the `inode` fields: two blocks that
agree on every entry's `inode` field scan identically. -/
theorem findFreeSlotFrom_congr (dirA dirB : Nat → Nat)
    (h : ∀ i, readLE32 dirA (sizeof_dirent * i) = readLE32 dirB (sizeof_dirent * i)) :
    ∀ n i0, findFreeSlotFrom dirA i0 n = findFreeSlotFrom dirB i0 n := by
  intro n
  induction n with
  | zero => intro i0; rfl
  | succ m ih =>
    intro i0
    simp only [findFreeSlotFrom]
    rw [h i0]
    by_cases hc : readLE32 dirB (sizeof_dirent * i0) = 0
    · rw [if_pos hc, if_pos hc]
    · rw [if_neg hc, if_neg hc]
      exact ih _

/-- Unfolding of `addDirent` when the slot scan finds slot `s`. -/
theorem addDirent_found (dir : Nat → Nat) (ino : Nat) (name : List Nat) (s : Nat)
    (h : findFreeSlotFrom dir 2 126 = some s) :
    addDirent dir ino name
      = strncpyBytes (writeBytes dir (sizeof_dirent * s) 4 (le32 ino))
          (sizeof_dirent * s + 4) name (MAX_NAME - 1) := by
  unfold addDirent
  rw [h]

/-- Unfolding of `addDirent` when the slot scan finds no free slot: the
block is returned unchanged (and no error is raised in the source). -/
theorem addDirent_none (dir : Nat → Nat) (ino : Nat) (name : List Nat)
    (h : findFreeSlotFrom dir 2 126 = none) :
    addDirent dir ino name = dir := by
  unfold addDirent
  rw [h]

/-- Bytes of the slot filled by `addDirent`, inside the `inode` field:
`ents[i].inode = ino` stores the little-endian bytes of `ino`. -/
theorem addDirent_inode_byte (dir : Nat → Nat) (name : List Nat) (ino s k : Nat)
    (h : findFreeSlotFrom dir 2 126 = some s) (hk : k < 4) :
    addDirent dir ino name (sizeof_dirent * s + k) = le32 ino k := by
  rw [addDirent_found dir ino name s h]
  unfold strncpyBytes writeBytes
  rw [if_neg (by simp only [sizeof_dirent, MAX_NAME]; omega),
    if_pos (by simp only [sizeof_dirent]; omega)]
  congr 1
  simp only [sizeof_dirent]
  omega

/-- With `ino = 0` the filled slot's `inode` field still reads 0. -/
theorem addDirent_inode_zero (dir : Nat → Nat) (name : List Nat) (s : Nat)
    (h : findFreeSlotFrom dir 2 126 = some s) :
    readLE32 (addDirent dir 0 name) (sizeof_dirent * s) = 0 := by
  have e0 := addDirent_inode_byte dir name 0 s 0 h (by norm_num)
  have e1 := addDirent_inode_byte dir name 0 s 1 h (by norm_num)
  have e2 := addDirent_inode_byte dir name 0 s 2 h (by norm_num)
  have e3 := addDirent_inode_byte dir name 0 s 3 h (by norm_num)
  simp only [Nat.add_zero] at e0
  unfold readLE32
  rw [e0, e1, e2, e3]
  simp [le32]

/-- `addDirent` leaves every byte outside the filled slot's entry
unchanged. -/
theorem addDirent_outside (dir : Nat → Nat) (name : List Nat) (ino s j : Nat)
    (h : findFreeSlotFrom dir 2 126 = some s)
    (hj : j < sizeof_dirent * s ∨ sizeof_dirent * s + 31 ≤ j) :
    addDirent dir ino name j = dir j := by
  rw [addDirent_found dir ino name s h]
  unfold strncpyBytes writeBytes
  rw [if_neg (by simp only [sizeof_dirent, MAX_NAME] at hj ⊢; omega),
    if_neg (by simp only [sizeof_dirent] at hj ⊢; omega)]

/-- Writing a directory entry with inode number 0 leaves every entry's
`inode` field reading exactly as before. -/
theorem addDirent_zero_inode_fields (dir : Nat → Nat) (name : List Nat) (s : Nat)
    (h : findFreeSlotFrom dir 2 126 = some s) :
    ∀ i, readLE32 (addDirent dir 0 name) (sizeof_dirent * i) = readLE32 dir (sizeof_dirent * i) := by
  intro i
  by_cases hi : i = s
  · subst hi
    rw [addDirent_inode_zero dir name i h, findFreeSlotFrom_found dir 126 2 i h]
  · have e : ∀ k, k < 4 →
        addDirent dir 0 name (sizeof_dirent * i + k) = dir (sizeof_dirent * i + k) := by
      intro k hk
      refine addDirent_outside dir name 0 s _ h ?_
      simp only [sizeof_dirent]
      rcases Nat.lt_or_ge i s with hlt | hge
      · left; omega
      · right
        have : s < i := by omega
        omega
    have e0 := e 0 (by norm_num)
    have e1 := e 1 (by norm_num)
    have e2 := e 2 (by norm_num)
    have e3 := e 3 (by norm_num)
    simp only [Nat.add_zero] at e0
    unfold readLE32
    rw [e0, e1, e2, e3]

/-- C10: when bit 0 of the inode bitmap is clear, the bitmap scan of
`cmd_create` allocates inode number 0; the directory entry it stages then
has `inode` field 0 — the very value the slot scan treats as "free" — so
the staged directory block's first free slot is the same slot as before:
a subsequent `cmd_create`'s scan selects it again and overwrites the
entry. -/
theorem inode_zero_aliases_free_slot (d : Disk) (name : List Nat)
    (hbit : testBitmap (blockBytes d INODE_BMAP_IDX) 0 = false) :
    findFreeBitFrom (blockBytes d INODE_BMAP_IDX) 0 (BLOCK_SIZE * 8) = some 0
    ∧ (∀ s, findFreeSlotFrom (blockBytes d DATA_START_IDX) 2 126 = some s →
        readLE32 (addDirent (blockBytes d DATA_START_IDX) 0 name) (sizeof_dirent * s) = 0)
    ∧ findFreeSlotFrom (addDirent (blockBytes d DATA_START_IDX) 0 name) 2 126
        = findFreeSlotFrom (blockBytes d DATA_START_IDX) 2 126 := by
  refine ⟨?_, ?_, ?_⟩
  · have step : findFreeBitFrom (blockBytes d INODE_BMAP_IDX) 0 (BLOCK_SIZE * 8)
        = if testBitmap (blockBytes d INODE_BMAP_IDX) 0 then
            findFreeBitFrom (blockBytes d INODE_BMAP_IDX) 1 32767
          else some 0 := rfl
    rw [step, hbit]
    simp
  · intro s hs
    exact addDirent_inode_zero _ name s hs
  · cases hfound : findFreeSlotFrom (blockBytes d DATA_START_IDX) 2 126 with
    | none =>
      rw [addDirent_none _ 0 name hfound]
      exact hfound
    | some s =>
      exact (findFreeSlotFrom_congr _ _
        (addDirent_zero_inode_fields _ name s hfound) 126 2).trans hfound

/-- Witness for C10 on a fresh image: inode 0 is allocated, the staged
slot-2 entry reads inode 0, and the staged block's slot scan still returns
slot 2. -/
theorem inode_zero_aliases_free_slot_witness :
    testBitmap (blockBytes freshDisk INODE_BMAP_IDX) 0 = false
    ∧ findFreeBitFrom (blockBytes freshDisk INODE_BMAP_IDX) 0 (BLOCK_SIZE * 8) = some 0
    ∧ readLE32 (addDirent (blockBytes freshDisk DATA_START_IDX) 0 fooName) (sizeof_dirent * 2) = 0
    ∧ findFreeSlotFrom (addDirent (blockBytes freshDisk DATA_START_IDX) 0 fooName) 2 126
        = findFreeSlotFrom (blockBytes freshDisk DATA_START_IDX) 2 126 :=
  ⟨by decide,
   (inode_zero_aliases_free_slot freshDisk fooName (by decide)).1,
   (inode_zero_aliases_free_slot freshDisk fooName (by decide)).2.1 2 (by decide),
   (inode_zero_aliases_free_slot freshDisk fooName (by decide)).2.2⟩

/-- C8 amended: for a name with at least `MAX_NAME - 1` = 27 characters
before its terminator, the entry update stores exactly the first 27
characters — `strncpy(ents[i].name, name, MAX_NAME - 1)` — and never writes
past them: the 28th (final) byte of the fixed name field is left holding
whatever it held before (a terminator only if the slot already contained
one, as on a zero-initialized image), and no byte beyond the entry is
touched. -/
theorem create_truncates_name (dir : Nat → Nat) (name : List Nat) (ino s : Nat)
    (hs : findFreeSlotFrom dir 2 126 = some s)
    (hlong : MAX_NAME - 1 ≤ (name.takeWhile (fun c => c != 0)).length) :
    ((name.takeWhile (fun c => c != 0)).take (MAX_NAME - 1)).length = MAX_NAME - 1
    ∧ (∀ k, k < MAX_NAME - 1 →
        addDirent dir ino name (sizeof_dirent * s + 4 + k)
          = ((name.takeWhile (fun c => c != 0)).take (MAX_NAME - 1)).getD k 0)
    ∧ addDirent dir ino name (sizeof_dirent * s + 4 + (MAX_NAME - 1))
        = dir (sizeof_dirent * s + 4 + (MAX_NAME - 1))
    ∧ ∀ j, sizeof_dirent * s + sizeof_dirent ≤ j → addDirent dir ino name j = dir j := by
  refine ⟨?_, ?_, ?_, ?_⟩
  · rw [List.length_take]
    simp only [MAX_NAME] at hlong ⊢
    omega
  · intro k hk
    rw [addDirent_found dir ino name s hs]
    unfold strncpyBytes
    rw [if_pos (by simp only [sizeof_dirent, MAX_NAME] at hk ⊢; omega)]
    have : sizeof_dirent * s + 4 + k - (sizeof_dirent * s + 4) = k := by
      simp only [sizeof_dirent]
      omega
    rw [this]
  · refine addDirent_outside dir name ino s _ hs ?_
    right
    simp only [sizeof_dirent, MAX_NAME]
    omega
  · intro j hj
    refine addDirent_outside dir name ino s j hs ?_
    right
    simp only [sizeof_dirent] at hj ⊢
    omega

/-- Directory block whose only nonzero byte is the last byte of slot 2's
name field (value 55): slot 2 is free, but its name field does not end in a
NUL. -/
def dirStale : Nat → Nat := fun j => if j = sizeof_dirent * 2 + 31 then 55 else 0

/-- The 28 bytes of a 28-character name (no terminator among them). -/
def name28 : List Nat := List.replicate 28 65

/-- Counterexample to C8 as stated: with the 28-character name `name28`
(longer than the 27 storable characters), the update stores the 27 bytes 65
but does NOT write a null terminator: the final name byte keeps its prior
value 55, so the stored field is not "27 characters followed by a null
terminator". -/
theorem create_truncates_name_counterexample :
    (∀ k, k < 27 → addDirent dirStale 0 name28 (sizeof_dirent * 2 + 4 + k) = 65)
    ∧ addDirent dirStale 0 name28 (sizeof_dirent * 2 + 31) = 55 := by
  constructor
  · decide
  · decide

/-- Witness for C8 (amended) at `dirStale` and `name28`. -/
theorem create_truncates_name_witness :
    (findFreeSlotFrom dirStale 2 126 = some 2
      ∧ MAX_NAME - 1 ≤ (name28.takeWhile (fun c => c != 0)).length)
    ∧ ((name28.takeWhile (fun c => c != 0)).take (MAX_NAME - 1)).length = MAX_NAME - 1
    ∧ addDirent dirStale 7 name28 (sizeof_dirent * 2 + 4 + 0)
        = ((name28.takeWhile (fun c => c != 0)).take (MAX_NAME - 1)).getD 0 0
    ∧ addDirent dirStale 7 name28 (sizeof_dirent * 2 + 4 + (MAX_NAME - 1))
        = dirStale (sizeof_dirent * 2 + 4 + (MAX_NAME - 1))
    ∧ addDirent dirStale 7 name28 (sizeof_dirent * 2 + sizeof_dirent)
        = dirStale (sizeof_dirent * 2 + sizeof_dirent) :=
  ⟨⟨by decide, by decide⟩,
   (create_truncates_name dirStale name28 7 2 (by decide) (by decide)).1,
   (create_truncates_name dirStale name28 7 2 (by decide) (by decide)).2.1 0 (by decide),
   (create_truncates_name dirStale name28 7 2 (by decide) (by decide)).2.2.1,
   (create_truncates_name dirStale name28 7 2 (by decide) (by decide)).2.2.2
     (sizeof_dirent * 2 + sizeof_dirent) (by decide)⟩

/-- The four little-endian bytes of a uint32 value reassemble to the
value. -/
theorem le32_roundtrip (v : Nat) (hv : v < 4294967296) :
    le32 v 0 + le32 v 1 * 256 + le32 v 2 * 65536 + le32 v 3 * 16777216 = v := by
  unfold le32
  norm_num
  omega

/-- The first byte of every serialized data record is the tag 1. -/
theorem serializeRecs_tag (recs : List JRec) (m : Nat) (hm : m < recs.length) :
    serializeRecs recs (sizeof_journal_data * m) = 1 := by
  unfold serializeRecs
  have h1 : sizeof_journal_data * m / sizeof_journal_data = m := by
    simp only [sizeof_journal_data]
    omega
  have h2 : sizeof_journal_data * m % sizeof_journal_data = 0 := by
    simp only [sizeof_journal_data]
    omega
  rw [h1, h2, List.get?_eq_get hm]
  norm_num [dataRecBytes, le32, JTYPE_DATA]

/-- Serialization of a nonempty record list, inside the first record. -/
theorem serializeRecs_cons_lt (r : JRec) (rs : List JRec) (i : Nat)
    (hi : i < sizeof_journal_data) :
    serializeRecs (r :: rs) i = dataRecBytes r.1 r.2 i := by
  unfold serializeRecs
  have h1 : i / sizeof_journal_data = 0 := by
    simp only [sizeof_journal_data] at hi ⊢
    omega
  have h2 : i % sizeof_journal_data = i := by
    simp only [sizeof_journal_data] at hi ⊢
    omega
  rw [h1, h2]
  rfl

/-- One transaction's byte stream, shifted past its first data record, is
the byte stream of the remaining transaction. -/
theorem txnBytes_cons (r : JRec) (rs : List JRec) (j : Nat) :
    txnBytes (r :: rs) (sizeof_journal_data + j) = txnBytes rs j := by
  unfold txnBytes serializeRecs
  simp only [sizeof_journal_data, List.length_cons]
  have hd : (4104 + j) / 4104 = j / 4104 + 1 := by omega
  have hm : (4104 + j) % 4104 = j % 4104 := by omega
  rw [hd, hm]
  by_cases hj : j < 4104 * rs.length
  · rw [if_pos (by omega), if_pos hj]
    rfl
  · rw [if_neg (by omega), if_neg hj]
    have hidx : 4104 + j - 4104 * (rs.length + 1) = j - 4104 * rs.length := by omega
    rw [hidx]

/-- Core of C2: when the journal bytes covered by the persisted
`nbytes_used` consist only of data records (a possibly truncated
serialization with no commit record inside the covered range), the replay
loop applies no `writeblk` at all: the disk component of its result is the
input disk unchanged, from any record-boundary offset `4100 + 4104 * m`. -/
theorem installLoop_no_commit (d : Disk) (recs : List JRec)
    (hlen : read_jhdr d ≤ 4104 * recs.length)
    (hbytes : ∀ i, i < read_jhdr d → d (4100 + i) = serializeRecs recs i) :
    ∀ fuel m pending,
      (installLoop (4100 + read_jhdr d) fuel (4100 + 4104 * m) d pending).1 = d := by
  intro fuel
  induction fuel with
  | zero =>
    intro m pending
    rfl
  | succ f ih =>
    intro m pending
    simp only [installLoop, sizeof_journal_data, sizeof_journal_commit, JTYPE_DATA,
      JTYPE_COMMIT, BLOCK_SIZE]
    by_cases hoff : 4100 + 4104 * m < 4100 + read_jhdr d
    · rw [if_pos hoff]
      have hb0 : d (4100 + 4104 * m) = 1 := by
        rw [hbytes (4104 * m) (by omega)]
        exact serializeRecs_tag recs m (by omega)
      by_cases ht1 : readLE32 d (4100 + 4104 * m) = 1
      · rw [if_pos ht1]
        have harith : 4100 + 4104 * m + 4104 = 4100 + 4104 * (m + 1) := by ring
        rw [harith]
        exact ih (m + 1) _
      · rw [if_neg ht1]
        by_cases ht2 : readLE32 d (4100 + 4104 * m) = 2
        · exfalso
          unfold readLE32 at ht2
          rw [hb0] at ht2
          omega
        · rw [if_neg ht2]
    · rw [if_neg hoff]

/-- C2: atomicity of replay.  If the bytes covered by the persisted header
length are (a possibly truncated prefix of) data records only — a
transaction whose commit record is not covered, as after a crash that wrote
data records but never advanced the header, or content whose scan stops at
an unknown tag — then `cmd_install` writes none of those pending records:
every byte outside the journal-header block (in particular the whole inode
bitmap, inode table and directory blocks) is exactly as it was before. -/
theorem install_discards_uncommitted (d : Disk) (g : Nat → Nat) (recs : List JRec)
    (hlen : read_jhdr d ≤ sizeof_journal_data * recs.length)
    (hbytes : ∀ i, i < read_jhdr d →
      d (blkoff JOURNAL_BLOCK_IDX + sizeof_journal_header + i) = serializeRecs recs i) :
    ∀ i, i < blkoff JOURNAL_BLOCK_IDX ∨ blkoff (JOURNAL_BLOCK_IDX + 1) ≤ i →
      cmd_install d g i = d i := by
  intro i hi
  have hlen2 : read_jhdr d ≤ 4104 * recs.length := hlen
  have hbytes2 : ∀ j, j < read_jhdr d → d (4100 + j) = serializeRecs recs j := hbytes
  have key := installLoop_no_commit d recs hlen2 hbytes2 (read_jhdr d + 1) 0 []
  have hinst : cmd_install d g = write_jhdr d 0 g := by
    show write_jhdr
      (installLoop (4100 + read_jhdr d) (read_jhdr d + 1) (4100 + 4104 * 0) d []).1 0 g
      = write_jhdr d 0 g
    rw [key]
  rw [hinst]
  exact write_jhdr_outside d 0 g i hi

/-- Two serialized data records and a header announcing exactly their 8208
bytes — a transaction whose commit was never written (the crash scenario:
2 of 3 data records persisted, header advanced over them but no commit). -/
def recsPartial : List JRec :=
  [(INODE_BMAP_IDX, fun k => if k < 4096 then 1 else 0),
   (INODE_START_IDX, fun k => if k < 4096 then 2 else 0)]

/-- Disk holding `recsPartial` in its journal with `nbytes_used` = 8208. -/
def dPartial : Disk := fun i =>
  if i < 4096 then 0
  else if i < 4100 then le32 8208 (i - 4096)
  else serializeRecs recsPartial (i - 4100)

/-- Witness for C2: on `dPartial` the hypotheses hold concretely and the
inode-bitmap byte is untouched by `cmd_install`. -/
theorem install_discards_uncommitted_witness :
    (read_jhdr dPartial ≤ sizeof_journal_data * recsPartial.length
      ∧ read_jhdr dPartial = 8208)
    ∧ cmd_install dPartial gZero (blkoff INODE_BMAP_IDX) = dPartial (blkoff INODE_BMAP_IDX) := by
  refine ⟨⟨by decide, by decide⟩, ?_⟩
  refine install_discards_uncommitted dPartial gZero recsPartial (by decide) ?_
    (blkoff INODE_BMAP_IDX) (Or.inr (by decide))
  intro i hi
  have h8 : read_jhdr dPartial = 8208 := by decide
  have hi8 : i < 8208 := by omega
  show dPartial (4100 + i) = serializeRecs recsPartial i
  unfold dPartial
  rw [if_neg (by omega), if_neg (by omega)]
  have hidx : 4100 + i - 4100 = i := by omega
  rw [hidx]

/-- Core of C7: a fully committed transaction — `rs` data records, block
numbers fitting uint32 and payloads normalized past 4096, followed by one
commit record, ending exactly at the covered length — is replayed in full:
every record is appended to the pending list (so `np` peaks at exactly
`pending.length + rs.length`) and applied in order at the commit. -/
theorem installLoop_applies_txn :
    ∀ (rs : List JRec) (fuel off : Nat) (pending : List JRec) (d : Disk),
      (∀ r ∈ rs, r.1 < 4294967296 ∧ ∀ k, 4096 ≤ k → r.2 k = 0) →
      rs.length + 2 ≤ fuel →
      (∀ j, j < 4104 * rs.length + 4 → d (off + j) = txnBytes rs j) →
      installLoop (off + (4104 * rs.length + 4)) fuel off d pending
        = (applyWrites d (pending ++ rs), pending.length + rs.length) := by
  intro rs
  induction rs with
  | nil =>
    intro fuel off pending d hrecs hfuel hbytes
    obtain ⟨f, rfl⟩ : ∃ f, fuel = f + 2 := ⟨fuel - 2, by omega⟩
    simp only [List.length_nil, Nat.mul_zero, Nat.zero_add] at hbytes ⊢
    have h0 : d (off + 0) = 2 := by
      rw [hbytes 0 (by norm_num)]
      norm_num [txnBytes, serializeRecs, le32, JTYPE_COMMIT]
    have h1 : d (off + 1) = 0 := by
      rw [hbytes 1 (by norm_num)]
      norm_num [txnBytes, serializeRecs, le32, JTYPE_COMMIT]
    have h2 : d (off + 2) = 0 := by
      rw [hbytes 2 (by norm_num)]
      norm_num [txnBytes, serializeRecs, le32, JTYPE_COMMIT]
    have h3 : d (off + 3) = 0 := by
      rw [hbytes 3 (by norm_num)]
      norm_num [txnBytes, serializeRecs, le32, JTYPE_COMMIT]
    simp only [Nat.add_zero] at h0
    have ht : readLE32 d off = 2 := by
      unfold readLE32
      rw [h0, h1, h2, h3]
    simp only [installLoop, sizeof_journal_data, sizeof_journal_commit, JTYPE_DATA,
      JTYPE_COMMIT, BLOCK_SIZE]
    rw [if_pos (by omega), if_neg (by simp [ht]), if_pos ht]
    simp [installLoop, lt_self_iff_false, List.append_nil]
  | cons r rs2 ih =>
    intro fuel off pending d hrecs hfuel hbytes
    obtain ⟨f, rfl⟩ : ∃ f, fuel = f + 1 := ⟨fuel - 1, by omega⟩
    simp only [List.length_cons] at hfuel hbytes ⊢
    have hrecr := hrecs r (List.mem_cons_self r rs2)
    have hb : ∀ j, j < 4 → d (off + j) = le32 1 j := by
      intro j hj
      rw [hbytes j (by omega)]
      unfold txnBytes
      rw [if_pos (by simp only [sizeof_journal_data, List.length_cons]; omega)]
      rw [serializeRecs_cons_lt r rs2 j (by simp only [sizeof_journal_data]; omega)]
      unfold dataRecBytes
      rw [if_pos hj]
      rfl
    have ht1 : readLE32 d off = 1 := by
      have e0 := hb 0 (by norm_num)
      have e1 := hb 1 (by norm_num)
      have e2 := hb 2 (by norm_num)
      have e3 := hb 3 (by norm_num)
      simp only [Nat.add_zero] at e0
      unfold readLE32
      rw [e0, e1, e2, e3]
      norm_num [le32]
    have hbn : readLE32 d (off + 4) = r.1 := by
      have e : ∀ j, j < 4 → d (off + 4 + j) = le32 r.1 j := by
        intro j hj
        have h := hbytes (4 + j) (by omega)
        rw [← Nat.add_assoc] at h
        rw [h]
        unfold txnBytes
        rw [if_pos (by simp only [sizeof_journal_data, List.length_cons]; omega)]
        rw [serializeRecs_cons_lt r rs2 (4 + j) (by simp only [sizeof_journal_data]; omega)]
        unfold dataRecBytes
        rw [if_neg (by omega), if_pos (by omega)]
        congr 1
        omega
      have e0 := e 0 (by norm_num)
      have e1 := e 1 (by norm_num)
      have e2 := e 2 (by norm_num)
      have e3 := e 3 (by norm_num)
      simp only [Nat.add_zero] at e0
      unfold readLE32
      rw [e0, e1, e2, e3]
      exact le32_roundtrip r.1 hrecr.1
    have hpl : (fun k => if k < BLOCK_SIZE then d (off + 8 + k) else 0) = r.2 := by
      funext k
      by_cases hk : k < BLOCK_SIZE
      · rw [if_pos hk]
        simp only [BLOCK_SIZE] at hk
        have h := hbytes (8 + k) (by omega)
        rw [← Nat.add_assoc] at h
        rw [h]
        unfold txnBytes
        rw [if_pos (by simp only [sizeof_journal_data, List.length_cons]; omega)]
        rw [serializeRecs_cons_lt r rs2 (8 + k) (by simp only [sizeof_journal_data]; omega)]
        unfold dataRecBytes
        rw [if_neg (by omega), if_neg (by omega)]
        have hidx : 8 + k - 8 = k := by omega
        rw [hidx]
      · rw [if_neg hk]
        simp only [BLOCK_SIZE] at hk
        exact (hrecr.2 k (by omega)).symm
    have hrec : ((readLE32 d (off + 4),
        fun k => if k < BLOCK_SIZE then d (off + 8 + k) else 0) : JRec) = r :=
      Prod.ext hbn hpl
    simp only [installLoop, sizeof_journal_data, sizeof_journal_commit, JTYPE_DATA,
      JTYPE_COMMIT, BLOCK_SIZE]
    rw [if_pos (by omega), if_pos ht1]
    simp only [BLOCK_SIZE] at hrec
    rw [hrec]
    have hendo : off + (4104 * (rs2.length + 1) + 4) = off + 4104 + (4104 * rs2.length + 4) := by
      ring
    rw [hendo]
    have hbytes2 : ∀ j, j < 4104 * rs2.length + 4 →
        d (off + 4104 + j) = txnBytes rs2 j := by
      intro j hj
      have h := hbytes (4104 + j) (by omega)
      rw [← Nat.add_assoc] at h
      rw [h]
      exact txnBytes_cons r rs2 j
    have ihres := ih f (off + 4104) (pending ++ [r]) d
      (fun x hx => hrecs x (List.mem_cons_of_mem r hx)) (by omega) hbytes2
    rw [ihres]
    have hl : (pending ++ [r]) ++ rs2 = pending ++ r :: rs2 := by simp
    have hn : (pending ++ [r]).length + rs2.length = pending.length + (rs2.length + 1) := by
      simp
      omega
    rw [hl, hn]

/-- C7 amended: the replay buffer is NOT unbounded — it is the fixed
8-element array `journal_data_t pending[8]` — but every committed
transaction of at most 8 data records is handled correctly: each record is
buffered with the pending count staying within the array bound (it peaks at
exactly the record count, ≤ 8) and each is applied to its home location in
order (the final disk agrees with `applyWrites d recs` everywhere past the
journal-header block that the closing header reset rewrites). -/
theorem install_applies_bounded_txn (d : Disk) (g : Nat → Nat) (recs : List JRec)
    (hcount : recs.length ≤ 8)
    (hrecs : ∀ r ∈ recs, r.1 < 4294967296 ∧ ∀ k, 4096 ≤ k → r.2 k = 0)
    (hused : read_jhdr d = sizeof_journal_data * recs.length + sizeof_journal_commit)
    (hbytes : ∀ i, i < read_jhdr d →
      d (blkoff JOURNAL_BLOCK_IDX + sizeof_journal_header + i) = txnBytes recs i) :
    installMaxPending d = recs.length
    ∧ installMaxPending d ≤ 8
    ∧ ∀ i, blkoff (JOURNAL_BLOCK_IDX + 1) ≤ i → cmd_install d g i = applyWrites d recs i := by
  have hused2 : read_jhdr d = 4104 * recs.length + 4 := hused
  have hbytes2 : ∀ j, j < 4104 * recs.length + 4 → d (4100 + j) = txnBytes recs j := by
    intro j hj
    exact hbytes j (by omega)
  have key := installLoop_applies_txn recs (4104 * recs.length + 4 + 1) 4100 [] d hrecs
    (by omega) hbytes2
  have hmax : installMaxPending d = recs.length := by
    show (installLoop (4100 + read_jhdr d) (read_jhdr d + 1) 4100 d []).2 = recs.length
    rw [hused2, key]
    simp
  refine ⟨hmax, by omega, ?_⟩
  intro i hi
  show write_jhdr (installLoop (4100 + read_jhdr d) (read_jhdr d + 1) 4100 d []).1 0 g i
    = applyWrites d recs i
  rw [hused2, key]
  simp only [List.nil_append]
  exact write_jhdr_outside _ 0 g i (Or.inr hi)

/-- A committed three-record transaction with distinct recognizable
payloads (1s to the inode bitmap, 2s to the inode table, 3s to the root
directory). -/
def recsTxn3 : List JRec :=
  [(INODE_BMAP_IDX, fun k => if k < 4096 then 1 else 0),
   (INODE_START_IDX, fun k => if k < 4096 then 2 else 0),
   (DATA_START_IDX, fun k => if k < 4096 then 3 else 0)]

/-- Disk holding the committed `recsTxn3` transaction, header = 12316. -/
def dTxn3 : Disk := fun i =>
  if i < 4096 then 0
  else if i < 4100 then le32 12316 (i - 4096)
  else txnBytes recsTxn3 (i - 4100)

/-- Nine data records targeting the inode bitmap, plus a commit. -/
def recsTxn9 : List JRec := List.replicate 9 (INODE_BMAP_IDX, fun k => if k < 4096 then 1 else 0)

/-- Disk holding the committed nine-record transaction `recsTxn9`, header =
9*4104+4 = 36940 (well within the 65532-byte journal capacity). -/
def dTxn9 : Disk := fun i =>
  if i < 4096 then 0
  else if i < 4100 then le32 36940 (i - 4096)
  else txnBytes recsTxn9 (i - 4100)

/-- Counterexample to C7 as stated: replaying the committed nine-record
transaction drives the pending count `np` to 9, so the ninth buffered
record is stored through `pending[8]` — one past the end of the fixed
`journal_data_t pending[8]` array.  The in-memory list is not unbounded;
indexing leaves the array's bounds. -/
theorem install_pending_overflow_counterexample :
    8 < installMaxPending dTxn9 ∧ installMaxPending dTxn9 = 9 := by
  constructor
  · decide
  · decide

/-- Witness for C7 (amended) on the three-record transaction `dTxn3`. -/
theorem install_applies_bounded_txn_witness :
    (recsTxn3.length ≤ 8
      ∧ read_jhdr dTxn3 = sizeof_journal_data * recsTxn3.length + sizeof_journal_commit)
    ∧ installMaxPending dTxn3 = recsTxn3.length
    ∧ cmd_install dTxn3 gZero (blkoff INODE_BMAP_IDX)
        = applyWrites dTxn3 recsTxn3 (blkoff INODE_BMAP_IDX) := by
  have hrecs : ∀ r ∈ recsTxn3, r.1 < 4294967296 ∧ ∀ k, 4096 ≤ k → r.2 k = 0 := by
    intro r hr
    simp only [recsTxn3, List.mem_cons, List.not_mem_nil, or_false] at hr
    rcases hr with rfl | rfl | rfl <;>
      exact ⟨by decide, fun k hk => by simp only []; rw [if_neg (by omega)]⟩
  have hbytes : ∀ i, i < read_jhdr dTxn3 →
      dTxn3 (blkoff JOURNAL_BLOCK_IDX + sizeof_journal_header + i) = txnBytes recsTxn3 i := by
    intro i hi
    have h12 : read_jhdr dTxn3 = 12316 := by decide
    have hi12 : i < 12316 := by omega
    show dTxn3 (4100 + i) = txnBytes recsTxn3 i
    unfold dTxn3
    rw [if_neg (by omega), if_neg (by omega)]
    have hidx : 4100 + i - 4100 = i := by omega
    rw [hidx]
  refine ⟨⟨by decide, by decide⟩, ?_, ?_⟩
  · exact (install_applies_bounded_txn dTxn3 gZero recsTxn3 (by decide) hrecs (by decide)
      hbytes).1
  · exact (install_applies_bounded_txn dTxn3 gZero recsTxn3 (by decide) hrecs (by decide)
      hbytes).2.2 (blkoff INODE_BMAP_IDX) (by decide)

end VsfsJournal
